import Mathlib

/-!
Shallow embedding of the `elysia-circuit-breaker` library core:
the `CircuitBreaker` state machine (`src/circuit-breaker.ts`), the
`CircuitBreakerManager` registry (`src/manager.ts`) and the plugin-level
configuration merge (`src/index.ts`).

Modelling conventions:
* Timestamps (`Date.now()`) are natural numbers (epoch milliseconds) passed
  explicitly to each operation.
* The protected async operation is modelled by an `Operation`: the time it
  takes to settle plus the value or error it settles with; the
  `Promise.race` in `executeWithTimeout` becomes a comparison of that
  duration with the configured timeout.
* State-transition callbacks (`onOpen`/`onClose`/`onHalfOpen`) are modelled
  by identifying tags (`Option Nat`): only their presence and which layer of
  the configuration supplies them matters to the verified claims.
* The `setTimeout` handle `resetTimer` is modelled by the scheduled firing
  time (`Option Nat`); `timerFire` models the scheduled callback running.
-/

/-- `CircuitState` enum from `src/types.ts`: `CLOSED`, `OPEN`, `HALF_OPEN`. -/
inductive CircuitState where
  | CLOSED
  | OPEN
  | HALF_OPEN
deriving DecidableEq, Repr

/-- `CircuitBreakerConfig` from `src/types.ts`: every field optional. -/
structure CircuitBreakerConfig where
  failureThreshold : Option Nat := none
  resetTimeout : Option Nat := none
  timeout : Option Nat := none
  onOpen : Option Nat := none
  onClose : Option Nat := none
  onHalfOpen : Option Nat := none
deriving DecidableEq, Repr

/-- The breaker's internal `config` field: required numeric fields
(defaults applied by the constructor), callbacks still optional. -/
structure ResolvedConfig where
  failureThreshold : Nat
  resetTimeout : Nat
  timeout : Nat
  onOpen : Option Nat
  onClose : Option Nat
  onHalfOpen : Option Nat
deriving DecidableEq, Repr

/-- The mutable fields of the `CircuitBreaker` class together with its
immutable `name` and resolved `config`. -/
structure CircuitBreaker where
  name : String
  config : ResolvedConfig
  state : CircuitState
  failures : Nat
  successes : Nat
  totalCalls : Nat
  lastFailureTime : Option Nat
  lastSuccessTime : Option Nat
  resetTimer : Option Nat
deriving DecidableEq, Repr

/-- The `CircuitBreaker` constructor: field initializers plus the
`?? 5 / ?? 60000 / ?? 30000` defaulting of the configuration. -/
def mkCircuitBreaker (name : String) (config : CircuitBreakerConfig) :
    CircuitBreaker where
  name := name
  config :=
    { failureThreshold := config.failureThreshold.getD 5
      resetTimeout := config.resetTimeout.getD 60000
      timeout := config.timeout.getD 30000
      onOpen := config.onOpen
      onClose := config.onClose
      onHalfOpen := config.onHalfOpen }
  state := .CLOSED
  failures := 0
  successes := 0
  totalCalls := 0
  lastFailureTime := none
  lastSuccessTime := none
  resetTimer := none

/-- Errors an `execute` call can reject with: `CircuitBreakerError`
(carrying `circuitName` and `state`), the timeout `Error`, or the
protected operation's own error. -/
inductive CBError where
  | circuitOpen (circuitName : String) (state : CircuitState)
  | timeout (ms : Nat)
  | opFailure (message : String)
deriving DecidableEq, Repr

/-- The `message` property of each error value. -/
def CBError.message : CBError → String
  | .circuitOpen n _ => "Circuit breaker \"" ++ n ++ "\" is OPEN"
  | .timeout ms => "Request timeout after " ++ toString ms ++ "ms"
  | .opFailure m => m

/-- A protected async operation: how long it runs before settling, and
what it settles with (a value or a thrown error message). -/
structure Operation (α : Type) where
  duration : Nat
  result : Except String α
deriving Repr

/-- `executeWithTimeout`: race the operation against a
`config.timeout`-millisecond timer; the timer winning yields the timeout
error, otherwise the operation's own settlement is propagated. -/
def executeWithTimeout {α : Type} (config : ResolvedConfig)
    (op : Operation α) : Except CBError α :=
  if config.timeout < op.duration then
    .error (.timeout config.timeout)
  else
    match op.result with
    | .ok v => .ok v
    | .error m => .error (.opFailure m)

/-- The `Date.now()` value at which the race in `executeWithTimeout`
settles, when it is entered at time `now`. -/
def completionTime {α : Type} (config : ResolvedConfig) (now : Nat)
    (op : Operation α) : Nat :=
  now + min op.duration config.timeout

namespace CircuitBreaker

/-- `clearResetTimer`. -/
def clearResetTimer (b : CircuitBreaker) : CircuitBreaker :=
  { b with resetTimer := none }

/-- `scheduleReset`: clear any previous timer, then schedule a transition
check `resetTimeout` milliseconds from `now`. -/
def scheduleReset (b : CircuitBreaker) (now : Nat) : CircuitBreaker :=
  { b.clearResetTimer with resetTimer := some (now + b.config.resetTimeout) }

/-- `transitionToOpen` (the `onOpen` callback is an external effect). -/
def transitionToOpen (b : CircuitBreaker) (now : Nat) : CircuitBreaker :=
  scheduleReset { b with state := .OPEN } now

/-- `transitionToClosed`. -/
def transitionToClosed (b : CircuitBreaker) : CircuitBreaker :=
  clearResetTimer { b with state := .CLOSED, failures := 0 }

/-- `transitionToHalfOpen`. -/
def transitionToHalfOpen (b : CircuitBreaker) : CircuitBreaker :=
  { b with state := .HALF_OPEN }

/-- `onSuccess`, run when the raced operation settles successfully at
time `now`. -/
def onSuccess (b : CircuitBreaker) (now : Nat) : CircuitBreaker :=
  let b1 := { b with successes := b.successes + 1, lastSuccessTime := some now }
  let b2 := if b1.state = .HALF_OPEN then transitionToClosed b1 else b1
  { b2 with failures := 0 }

/-- `onFailure`, run when the raced operation settles with an error (or
the timeout fires) at time `now`. -/
def onFailure (b : CircuitBreaker) (now : Nat) : CircuitBreaker :=
  let b1 := { b with failures := b.failures + 1, lastFailureTime := some now }
  if b1.state = .HALF_OPEN then
    transitionToOpen b1 now
  else if b1.config.failureThreshold ≤ b1.failures then
    transitionToOpen b1 now
  else
    b1

/-- `shouldAttemptReset`: false until a failure has been recorded, then
true once `resetTimeout` has elapsed since `lastFailureTime`. -/
def shouldAttemptReset (b : CircuitBreaker) (now : Nat) : Bool :=
  match b.lastFailureTime with
  | none => false
  | some t => b.config.resetTimeout ≤ now - t

/-- The OPEN-state gate at the top of `execute` (after the `totalCalls`
increment): either pass the breaker through (transitioning to HALF_OPEN
when the cooldown has elapsed) or reject with `CircuitBreakerError`. -/
def openGate (b : CircuitBreaker) (now : Nat) :
    Except CBError CircuitBreaker :=
  if b.state = .OPEN then
    if b.shouldAttemptReset now then
      .ok b.transitionToHalfOpen
    else
      .error (.circuitOpen b.name b.state)
  else
    .ok b

/-- Run the raced operation and apply `onSuccess`/`onFailure`. -/
def settle {α : Type} (b : CircuitBreaker) (now : Nat) (op : Operation α) :
    CircuitBreaker × Except CBError α :=
  match executeWithTimeout b.config op with
  | .ok v => (b.onSuccess (completionTime b.config now op), .ok v)
  | .error e => (b.onFailure (completionTime b.config now op), .error e)

/-- The outcome of one `execute` call: the updated breaker, whether the
protected operation was invoked at all, and the delivered result. -/
structure ExecOutcome (α : Type) where
  breaker : CircuitBreaker
  invoked : Bool
  result : Except CBError α
deriving Repr

/-- `execute(fn)` entered at time `now`: increment `totalCalls`, pass the
OPEN gate, then run the operation under the timeout race. -/
def execute {α : Type} (b : CircuitBreaker) (now : Nat) (op : Operation α) :
    ExecOutcome α :=
  match openGate { b with totalCalls := b.totalCalls + 1 } now with
  | .error e =>
      { breaker := { b with totalCalls := b.totalCalls + 1 }
        invoked := false
        result := .error e }
  | .ok b1 =>
      { breaker := (b1.settle now op).1
        invoked := true
        result := (b1.settle now op).2 }

/-- The scheduled callback installed by `scheduleReset` firing: transition
to HALF_OPEN only if still OPEN. -/
def timerFire (b : CircuitBreaker) : CircuitBreaker :=
  if b.state = .OPEN then b.transitionToHalfOpen else b

/-- `reset()`: force CLOSED, zero `failures`, cancel the pending timer. -/
def reset (b : CircuitBreaker) : CircuitBreaker :=
  clearResetTimer { b with state := .CLOSED, failures := 0 }

/-- `getState()`. -/
def getState (b : CircuitBreaker) : CircuitState :=
  b.state

end CircuitBreaker

/-- `CircuitBreakerStats` snapshot from `src/types.ts`. -/
structure CircuitBreakerStats where
  state : CircuitState
  failures : Nat
  successes : Nat
  totalCalls : Nat
  lastFailureTime : Option Nat
  lastSuccessTime : Option Nat
deriving DecidableEq, Repr

/-- `getStats()`: a point-in-time copy of the counters and state. -/
def CircuitBreaker.getStats (b : CircuitBreaker) : CircuitBreakerStats :=
  { state := b.state
    failures := b.failures
    successes := b.successes
    totalCalls := b.totalCalls
    lastFailureTime := b.lastFailureTime
    lastSuccessTime := b.lastSuccessTime }

/-- `CircuitBreakerManager` from `src/manager.ts`: the `Map` of breakers,
modelled as an insertion-ordered association list with unique keys. -/
structure CircuitBreakerManager where
  breakers : List (String × CircuitBreaker)
deriving Repr

/-- `new CircuitBreakerManager()`. -/
def CircuitBreakerManager.empty : CircuitBreakerManager :=
  { breakers := [] }

/-- `Map.get` on the underlying map. -/
def CircuitBreakerManager.lookup (m : CircuitBreakerManager)
    (name : String) : Option CircuitBreaker :=
  m.breakers.lookup name

/-- `get(name, config)`: construct and store a breaker only when the name
is absent, then return the stored breaker (and the updated manager). -/
def CircuitBreakerManager.get (m : CircuitBreakerManager) (name : String)
    (config : CircuitBreakerConfig) :
    CircuitBreakerManager × CircuitBreaker :=
  match m.lookup name with
  | some b => (m, b)
  | none =>
      let b := mkCircuitBreaker name config
      ({ breakers := m.breakers ++ [(name, b)] }, b)

/-- Write back the (mutated) breaker stored under `name`; models the fact
that `Breaker.execute` mutates the object the map points to. -/
def CircuitBreakerManager.setBreaker (m : CircuitBreakerManager)
    (name : String) (b : CircuitBreaker) : CircuitBreakerManager :=
  { breakers := m.breakers.map (fun p => if p.1 = name then (name, b) else p) }

/-- `execute(name, fn, config)` on the manager: `get` then
`breaker.execute(fn)`. -/
def CircuitBreakerManager.execute {α : Type} (m : CircuitBreakerManager)
    (name : String) (now : Nat) (op : Operation α)
    (config : CircuitBreakerConfig) :
    CircuitBreakerManager × CircuitBreaker.ExecOutcome α :=
  ((m.get name config).1.setBreaker name
      ((m.get name config).2.execute now op).breaker,
    (m.get name config).2.execute now op)

/-- `has(name)`. -/
def CircuitBreakerManager.hasName (m : CircuitBreakerManager)
    (name : String) : Bool :=
  (m.lookup name).isSome

/-- `CircuitBreakerPluginConfig` from `src/index.ts`: a plugin-wide
default config plus eagerly-instantiated named presets. -/
structure CircuitBreakerPluginConfig where
  defaultConfig : CircuitBreakerConfig := {}
  breakers : List (String × CircuitBreakerConfig) := []

/-- The `{ ...base, ...over }` object spread on configs: a field present
in `over` wins, a missing field falls through to `base`. -/
def mergeConfig (base over : CircuitBreakerConfig) : CircuitBreakerConfig :=
  { failureThreshold := over.failureThreshold.orElse fun _ => base.failureThreshold
    resetTimeout := over.resetTimeout.orElse fun _ => base.resetTimeout
    timeout := over.timeout.orElse fun _ => base.timeout
    onOpen := over.onOpen.orElse fun _ => base.onOpen
    onClose := over.onClose.orElse fun _ => base.onClose
    onHalfOpen := over.onHalfOpen.orElse fun _ => base.onHalfOpen }

/-- The plugin setup in `circuitBreaker(config)`: create the manager and
eagerly `get` every preset with `{ ...defaultConfig, ...breakerConfig }`. -/
def circuitBreakerSetup (pcfg : CircuitBreakerPluginConfig) :
    CircuitBreakerManager :=
  pcfg.breakers.foldl
    (fun m nb => (m.get nb.1 (mergeConfig pcfg.defaultConfig nb.2)).1)
    CircuitBreakerManager.empty

/-- The decorated `breaker.get(name, breakerConfig)`: merge the plugin
default under the per-call config, then `manager.get`. -/
def pluginGet (pcfg : CircuitBreakerPluginConfig)
    (m : CircuitBreakerManager) (name : String)
    (breakerConfig : CircuitBreakerConfig) :
    CircuitBreakerManager × CircuitBreaker :=
  m.get name (mergeConfig pcfg.defaultConfig breakerConfig)

/-- The decorated `breaker.execute(name, fn, breakerConfig)`. -/
def pluginExecute {α : Type} (pcfg : CircuitBreakerPluginConfig)
    (m : CircuitBreakerManager) (name : String) (now : Nat)
    (op : Operation α) (breakerConfig : CircuitBreakerConfig) :
    CircuitBreakerManager × CircuitBreaker.ExecOutcome α :=
  m.execute name now op (mergeConfig pcfg.defaultConfig breakerConfig)

namespace CircuitBreaker

lemma onSuccess_fields (b : CircuitBreaker) (now : Nat) :
    (b.onSuccess now).successes = b.successes + 1 ∧
    (b.onSuccess now).lastSuccessTime = some now ∧
    (b.onSuccess now).failures = 0 ∧
    (b.onSuccess now).state = (if b.state = .HALF_OPEN then .CLOSED else b.state) ∧
    (b.onSuccess now).config = b.config ∧
    (b.onSuccess now).totalCalls = b.totalCalls ∧
    (b.onSuccess now).lastFailureTime = b.lastFailureTime := by
  unfold onSuccess transitionToClosed clearResetTimer
  split <;> simp_all

lemma onFailure_fields (b : CircuitBreaker) (now : Nat) :
    (b.onFailure now).failures = b.failures + 1 ∧
    (b.onFailure now).lastFailureTime = some now ∧
    (b.onFailure now).state =
      (if b.state = .HALF_OPEN ∨ b.config.failureThreshold ≤ b.failures + 1
        then .OPEN else b.state) ∧
    (b.onFailure now).config = b.config ∧
    (b.onFailure now).successes = b.successes ∧
    (b.onFailure now).totalCalls = b.totalCalls ∧
    (b.onFailure now).lastSuccessTime = b.lastSuccessTime := by
  unfold onFailure transitionToOpen scheduleReset clearResetTimer
  by_cases h1 : b.state = CircuitState.HALF_OPEN
  · simp [h1]
  · by_cases h2 : b.config.failureThreshold ≤ b.failures + 1
    · simp [h1, h2]
    · simp [h1, h2]

lemma openGate_ok {b b1 : CircuitBreaker} {now : Nat}
    (h : b.openGate now = .ok b1) :
    (b.state ≠ .OPEN ∧ b1 = b) ∨
    (b.state = .OPEN ∧ b.shouldAttemptReset now = true ∧
      b1 = b.transitionToHalfOpen) := by
  unfold openGate at h
  split at h
  · split at h
    · exact Or.inr ⟨by assumption, by assumption, by simpa using h.symm⟩
    · simp at h
  · exact Or.inl ⟨by assumption, by simpa using h.symm⟩

lemma transitionToHalfOpen_fields (b : CircuitBreaker) :
    b.transitionToHalfOpen.state = .HALF_OPEN ∧
    b.transitionToHalfOpen.failures = b.failures ∧
    b.transitionToHalfOpen.successes = b.successes ∧
    b.transitionToHalfOpen.totalCalls = b.totalCalls ∧
    b.transitionToHalfOpen.config = b.config ∧
    b.transitionToHalfOpen.lastFailureTime = b.lastFailureTime ∧
    b.transitionToHalfOpen.lastSuccessTime = b.lastSuccessTime := by
  unfold transitionToHalfOpen
  simp

end CircuitBreaker

/-- C6: `reset()` forces CLOSED, zeroes `failures`, cancels the pending
timer, leaves `successes`, `totalCalls` and both timestamps unchanged,
and is idempotent. -/
theorem reset_frame_and_idempotent (b : CircuitBreaker) :
    b.reset.state = .CLOSED ∧
    b.reset.failures = 0 ∧
    b.reset.resetTimer = none ∧
    b.reset.successes = b.successes ∧
    b.reset.totalCalls = b.totalCalls ∧
    b.reset.lastFailureTime = b.lastFailureTime ∧
    b.reset.lastSuccessTime = b.lastSuccessTime ∧
    b.reset.reset = b.reset :=
  ⟨rfl, rfl, rfl, rfl, rfl, rfl, rfl, rfl⟩

/-- C2: while OPEN with the cooldown not yet elapsed, `execute` rejects
with the `CircuitBreakerError` carrying the breaker's name and current
(OPEN) state, and the protected operation is never invoked. -/
theorem execute_open_rejects {α : Type} (b : CircuitBreaker) (now t : Nat)
    (op : Operation α)
    (hstate : b.state = .OPEN)
    (hlast : b.lastFailureTime = some t)
    (hcool : now - t < b.config.resetTimeout) :
    (b.execute now op).result = .error (.circuitOpen b.name .OPEN) ∧
    (b.execute now op).invoked = false := by
  simp [CircuitBreaker.execute, CircuitBreaker.openGate,
    CircuitBreaker.shouldAttemptReset, hstate, hlast, Nat.not_le.mpr hcool]

/-- C10: a call rejected while OPEN leaves the state, the failure and
success counters and both timestamps exactly as they were, and increments
`totalCalls` by exactly one; in particular `lastFailureTime` is not
refreshed, so the cooldown is not extended. -/
theorem execute_open_rejection_frame {α : Type} (b : CircuitBreaker)
    (now t : Nat) (op : Operation α)
    (hstate : b.state = .OPEN)
    (hlast : b.lastFailureTime = some t)
    (hcool : now - t < b.config.resetTimeout) :
    (b.execute now op).breaker.state = b.state ∧
    (b.execute now op).breaker.failures = b.failures ∧
    (b.execute now op).breaker.successes = b.successes ∧
    (b.execute now op).breaker.lastFailureTime = b.lastFailureTime ∧
    (b.execute now op).breaker.lastSuccessTime = b.lastSuccessTime ∧
    (b.execute now op).breaker.totalCalls = b.totalCalls + 1 := by
  simp [CircuitBreaker.execute, CircuitBreaker.openGate,
    CircuitBreaker.shouldAttemptReset, hstate, hlast, Nat.not_le.mpr hcool]

namespace CircuitBreaker

lemma execute_of_gate_error {α : Type} {b : CircuitBreaker} {now : Nat}
    {e : CBError} (op : Operation α)
    (h : CircuitBreaker.openGate { b with totalCalls := b.totalCalls + 1 } now
      = .error e) :
    b.execute now op =
      { breaker := { b with totalCalls := b.totalCalls + 1 }
        invoked := false
        result := .error e } := by
  unfold execute
  rw [h]

lemma execute_of_gate_ok {α : Type} {b b1 : CircuitBreaker} {now : Nat}
    (op : Operation α)
    (h : CircuitBreaker.openGate { b with totalCalls := b.totalCalls + 1 } now
      = .ok b1) :
    b.execute now op =
      { breaker := (b1.settle now op).1
        invoked := true
        result := (b1.settle now op).2 } := by
  unfold execute
  rw [h]

lemma settle_of_ok {α : Type} {b : CircuitBreaker} {now : Nat}
    {op : Operation α} {v : α} (h : executeWithTimeout b.config op = .ok v) :
    b.settle now op = (b.onSuccess (completionTime b.config now op), .ok v) := by
  unfold settle
  rw [h]

lemma settle_of_error {α : Type} {b : CircuitBreaker} {now : Nat}
    {op : Operation α} {e : CBError}
    (h : executeWithTimeout b.config op = .error e) :
    b.settle now op = (b.onFailure (completionTime b.config now op), .error e) := by
  unfold settle
  rw [h]

lemma openGate_ok_frame {b b1 : CircuitBreaker} {now : Nat}
    (h : b.openGate now = .ok b1) :
    b1.config = b.config ∧ b1.failures = b.failures ∧
    b1.successes = b.successes ∧ b1.totalCalls = b.totalCalls ∧
    b1.lastFailureTime = b.lastFailureTime ∧
    b1.lastSuccessTime = b.lastSuccessTime ∧ b1.name = b.name := by
  rcases openGate_ok h with ⟨_, rfl⟩ | ⟨_, _, rfl⟩ <;>
    exact ⟨rfl, rfl, rfl, rfl, rfl, rfl, rfl⟩

end CircuitBreaker

/-- C4: whenever `execute` delivers the operation's success, it increments
`successes`, stamps `lastSuccessTime` with the settlement time, leaves the
breaker CLOSED (in particular transitioning HALF_OPEN to CLOSED), and
resets `failures` to 0 unconditionally. -/
theorem execute_success_updates {α : Type} (b : CircuitBreaker) (now : Nat)
    (op : Operation α) (v : α)
    (hok : (b.execute now op).result = .ok v) :
    (b.execute now op).breaker.successes = b.successes + 1 ∧
    (b.execute now op).breaker.lastSuccessTime =
      some (completionTime b.config now op) ∧
    (b.execute now op).breaker.failures = 0 ∧
    (b.execute now op).breaker.state = .CLOSED := by
  cases hg : CircuitBreaker.openGate { b with totalCalls := b.totalCalls + 1 }
      now with
  | error e =>
      rw [CircuitBreaker.execute_of_gate_error op hg] at hok
      simp at hok
  | ok b1 =>
      rw [CircuitBreaker.execute_of_gate_ok op hg] at hok ⊢
      cases hE : executeWithTimeout b1.config op with
      | error e =>
          rw [CircuitBreaker.settle_of_error hE] at hok
          simp at hok
      | ok w =>
          rw [CircuitBreaker.settle_of_ok hE]
          obtain ⟨hsuc, hlastS, hfail, hst, -, -, -⟩ :=
            CircuitBreaker.onSuccess_fields b1
              (completionTime b1.config now op)
          obtain ⟨hcfg, hfails, hsuccs, -, -, -, -⟩ :=
            CircuitBreaker.openGate_ok_frame hg
          refine ⟨?_, ?_, hfail, ?_⟩
      
          · simpa [hsuccs] using hsuc
          · rw [hlastS, hcfg]
          · rw [hst]
            rcases CircuitBreaker.openGate_ok hg with ⟨hne, rfl⟩ |
              ⟨hop, hsar, rfl⟩
            · cases hbs : b.state with
              | CLOSED => simp [hbs]
              | OPEN => exact absurd hbs hne
              | HALF_OPEN => simp [hbs]
            · simp [CircuitBreaker.transitionToHalfOpen]

/-- C5: an operation that outlasts `config.timeout` makes `execute` (when
the call is admitted at all) reject with the timeout error whose message
spells out the configured value, and this is counted as exactly one
failure: `failures` goes up by one and `lastFailureTime` is stamped with
the moment the timeout fired. -/
theorem execute_timeout_counts_failure {α : Type} (b : CircuitBreaker)
    (now : Nat) (op : Operation α)
    (hinv : (b.execute now op).invoked = true)
    (hslow : b.config.timeout < op.duration) :
    (b.execute now op).result = .error (.timeout b.config.timeout) ∧
    (∃ pre suf, (CBError.timeout b.config.timeout).message =
      pre ++ toString b.config.timeout ++ suf) ∧
    (b.execute now op).breaker.failures = b.failures + 1 ∧
    (b.execute now op).breaker.lastFailureTime =
      some (now + b.config.timeout) := by
  cases hg : CircuitBreaker.openGate { b with totalCalls := b.totalCalls + 1 }
      now with
  | error e =>
      rw [CircuitBreaker.execute_of_gate_error op hg] at hinv
      simp at hinv
  | ok b1 =>
      obtain ⟨hcfg, hfails, -, -, -, -, -⟩ :=
        CircuitBreaker.openGate_ok_frame hg
      have hcfg' : b1.config = b.config := hcfg
      have hE : executeWithTimeout b1.config op =
          .error (.timeout b.config.timeout) := by
        unfold executeWithTimeout
        rw [hcfg']
        simp [hslow]
      have hct : completionTime b1.config now op = now + b.config.timeout := by
        unfold completionTime
        rw [hcfg', Nat.min_eq_right (Nat.le_of_lt hslow)]
      rw [CircuitBreaker.execute_of_gate_ok op hg,
        CircuitBreaker.settle_of_error hE]
      obtain ⟨hf, hlt, -, -, -, -, -⟩ :=
        CircuitBreaker.onFailure_fields b1 (completionTime b1.config now op)
      refine ⟨rfl, ⟨"Request timeout after ", "ms", rfl⟩, ?_, ?_⟩
      · rw [hf, hfails]
      · rw [hlt, hct]

/-- C3: while OPEN with the cooldown elapsed, `execute` first transitions
the breaker to HALF_OPEN (before the operation runs: the gate passes it
through in that state and the operation is invoked), a success then yields
CLOSED with `failures` = 0, and any failure immediately yields OPEN again
with no threshold check. -/
theorem execute_open_elapsed_probes {α : Type} (b : CircuitBreaker)
    (now t : Nat) (op : Operation α)
    (hstate : b.state = .OPEN)
    (hlast : b.lastFailureTime = some t)
    (helig : b.config.resetTimeout ≤ now - t) :
    (∃ b1, CircuitBreaker.openGate { b with totalCalls := b.totalCalls + 1 }
        now = .ok b1 ∧ b1.state = .HALF_OPEN) ∧
    (b.execute now op).invoked = true ∧
    ((executeWithTimeout b.config op).isOk = true →
      (b.execute now op).breaker.state = .CLOSED ∧
      (b.execute now op).breaker.failures = 0) ∧
    ((executeWithTimeout b.config op).isOk = false →
      (b.execute now op).breaker.state = .OPEN) := by
  have hg : CircuitBreaker.openGate { b with totalCalls := b.totalCalls + 1 }
      now = .ok (CircuitBreaker.transitionToHalfOpen
        { b with totalCalls := b.totalCalls + 1 }) := by
    unfold CircuitBreaker.openGate
    simp [CircuitBreaker.shouldAttemptReset, hstate, hlast, helig]
  have hb1state : (CircuitBreaker.transitionToHalfOpen
      { b with totalCalls := b.totalCalls + 1 }).state = .HALF_OPEN := rfl
  have hb1cfg : (CircuitBreaker.transitionToHalfOpen
      { b with totalCalls := b.totalCalls + 1 }).config = b.config := rfl
  refine ⟨⟨_, hg, hb1state⟩, ?_, ?_, ?_⟩
  · rw [CircuitBreaker.execute_of_gate_ok op hg]
  · intro hok
    cases hE : executeWithTimeout b.config op with
    | error e => rw [hE] at hok; simp [Except.isOk, Except.toBool] at hok
    | ok v =>
        have hE1 : executeWithTimeout (CircuitBreaker.transitionToHalfOpen
            { b with totalCalls := b.totalCalls + 1 }).config op = .ok v := by
          rw [hb1cfg]; exact hE
        rw [CircuitBreaker.execute_of_gate_ok op hg,
          CircuitBreaker.settle_of_ok hE1]
        obtain ⟨-, -, hfail, hst, -, -, -⟩ :=
          CircuitBreaker.onSuccess_fields _ (completionTime _ now op)
        refine ⟨?_, hfail⟩
        rw [hst, hb1state]
        decide
  · intro hfailop
    cases hE : executeWithTimeout b.config op with
    | ok v => rw [hE] at hfailop; simp [Except.isOk, Except.toBool] at hfailop
    | error e =>
        have hE1 : executeWithTimeout (CircuitBreaker.transitionToHalfOpen
            { b with totalCalls := b.totalCalls + 1 }).config op = .error e := by
          rw [hb1cfg]; exact hE
        rw [CircuitBreaker.execute_of_gate_ok op hg,
          CircuitBreaker.settle_of_error hE1]
        obtain ⟨-, -, hst, -, -, -, -⟩ :=
          CircuitBreaker.onFailure_fields _ (completionTime _ now op)
        rw [hst, hb1state]
        simp

/-- A sequence of `execute` calls: each entry is the arrival time of the
call and the protected operation it wraps. The breaker threads through. -/
def runCalls (b : CircuitBreaker) (calls : List (Nat × Operation Unit)) :
    CircuitBreaker :=
  calls.foldl (fun acc c => (acc.execute c.1 c.2).breaker) b

lemma runCalls_nil (b : CircuitBreaker) : runCalls b [] = b := rfl

lemma runCalls_cons (b : CircuitBreaker) (c : Nat × Operation Unit)
    (cs : List (Nat × Operation Unit)) :
    runCalls b (c :: cs) = runCalls ((b.execute c.1 c.2).breaker) cs := rfl

lemma execute_closed_fail_step (b : CircuitBreaker) (now : Nat)
    (op : Operation Unit)
    (hstate : b.state = .CLOSED)
    (hfailop : (executeWithTimeout b.config op).isOk = false) :
    (b.execute now op).breaker.failures = b.failures + 1 ∧
    (b.execute now op).breaker.config = b.config ∧
    (b.execute now op).breaker.state =
      (if b.config.failureThreshold ≤ b.failures + 1 then .OPEN
       else .CLOSED) := by
  have hg : CircuitBreaker.openGate { b with totalCalls := b.totalCalls + 1 }
      now = .ok { b with totalCalls := b.totalCalls + 1 } := by
    unfold CircuitBreaker.openGate
    simp [hstate]
  cases hE : executeWithTimeout b.config op with
  | ok v => rw [hE] at hfailop; simp [Except.isOk, Except.toBool] at hfailop
  | error e =>
      have hE1 : executeWithTimeout
          ({ b with totalCalls := b.totalCalls + 1 } :
            CircuitBreaker).config op = .error e := hE
      rw [CircuitBreaker.execute_of_gate_ok op hg,
        CircuitBreaker.settle_of_error hE1]
      obtain ⟨hf, -, hst, hcfg, -, -, -⟩ :=
        CircuitBreaker.onFailure_fields
          { b with totalCalls := b.totalCalls + 1 }
          (completionTime ({ b with totalCalls := b.totalCalls + 1 } :
            CircuitBreaker).config now op)
      refine ⟨hf, hcfg, ?_⟩
      rw [hst]
      have : ({ b with totalCalls := b.totalCalls + 1 } :
          CircuitBreaker).state = CircuitState.CLOSED := hstate
      simp [this, hstate]

lemma runCalls_closed_below (calls : List (Nat × Operation Unit)) :
    ∀ b : CircuitBreaker, b.state = .CLOSED →
    (∀ c ∈ calls, (executeWithTimeout b.config c.2).isOk = false) →
    b.failures + calls.length < b.config.failureThreshold →
    (runCalls b calls).state = .CLOSED ∧
    (runCalls b calls).failures = b.failures + calls.length ∧
    (runCalls b calls).config = b.config := by
  induction calls with
  | nil => intro b hb _ _; exact ⟨hb, by simp [runCalls_nil], rfl⟩
  | cons c cs ih =>
      intro b hb hall hlt
      obtain ⟨hf, hcfg, hst⟩ :=
        execute_closed_fail_step b c.1 c.2 hb (hall c (by simp))
      have hnotyet : ¬ b.config.failureThreshold ≤ b.failures + 1 := by
        simp at hlt ⊢
        omega
      have hstC : (b.execute c.1 c.2).breaker.state = .CLOSED := by
        rw [hst, if_neg hnotyet]
      rw [runCalls_cons]
      have hall' : ∀ d ∈ cs,
          (executeWithTimeout (b.execute c.1 c.2).breaker.config d.2).isOk
            = false := by
        intro d hd
        rw [hcfg]
        exact hall d (by simp [hd])
      have hlt' : (b.execute c.1 c.2).breaker.failures + cs.length <
          (b.execute c.1 c.2).breaker.config.failureThreshold := by
        rw [hf, hcfg]
        simp at hlt
        omega
      obtain ⟨h1, h2, h3⟩ := ih (b.execute c.1 c.2).breaker hstC hall' hlt'
      refine ⟨h1, ?_, by rw [h3, hcfg]⟩
      rw [h2, hf]
      simp
      omega

lemma runCalls_reaches_threshold (calls : List (Nat × Operation Unit)) :
    ∀ b : CircuitBreaker, b.state = .CLOSED →
    (∀ c ∈ calls, (executeWithTimeout b.config c.2).isOk = false) →
    calls ≠ [] →
    b.failures + calls.length = b.config.failureThreshold →
    (runCalls b calls).state = .OPEN := by
  induction calls with
  | nil => intro _ _ _ hne _; exact absurd rfl hne
  | cons c cs ih =>
      intro b hb hall _ hlen
      obtain ⟨hf, hcfg, hst⟩ :=
        execute_closed_fail_step b c.1 c.2 hb (hall c (by simp))
      cases cs with
      | nil =>
          have hth : b.config.failureThreshold ≤ b.failures + 1 := by
            simp at hlen
            omega
          rw [runCalls_cons, runCalls_nil, hst, if_pos hth]
      | cons d ds =>
          have hnotyet : ¬ b.config.failureThreshold ≤ b.failures + 1 := by
            simp at hlen
            omega
          have hstC : (b.execute c.1 c.2).breaker.state = .CLOSED := by
            rw [hst, if_neg hnotyet]
          rw [runCalls_cons]
          apply ih (b.execute c.1 c.2).breaker hstC
          · intro x hx
            rw [hcfg]
            exact hall x (by simp [hx])
          · simp
          · rw [hf, hcfg]
            simp at hlen ⊢
            omega

/-- C1: from CLOSED with `failures` = 0 and a positive threshold, a run of
exactly `failureThreshold` consecutive failing calls (no intervening
success) ends with the breaker OPEN, and the breaker was not OPEN after
any proper prefix of that run. -/
theorem consecutive_failures_open_at_threshold (b : CircuitBreaker)
    (calls : List (Nat × Operation Unit))
    (hstate : b.state = .CLOSED)
    (hzero : b.failures = 0)
    (hpos : 0 < b.config.failureThreshold)
    (hall : ∀ c ∈ calls, (executeWithTimeout b.config c.2).isOk = false)
    (hlen : calls.length = b.config.failureThreshold) :
    (runCalls b calls).state = .OPEN ∧
    ∀ pre : List (Nat × Operation Unit), pre.IsPrefix calls →
      pre.length < calls.length → (runCalls b pre).state ≠ .OPEN := by
  constructor
  · apply runCalls_reaches_threshold calls b hstate hall
    · intro hnil
      rw [hnil] at hlen
      simp at hlen
      omega
    · rw [hzero, hlen]
      simp
  · intro pre hpre hplen
    have hallpre : ∀ c ∈ pre, (executeWithTimeout b.config c.2).isOk
        = false := fun c hc => hall c (hpre.subset hc)
    have hplt : b.failures + pre.length < b.config.failureThreshold := by
      rw [hzero, ← hlen]
      simpa using hplen
    obtain ⟨h1, -, -⟩ := runCalls_closed_below pre b hstate hallpre hplt
    rw [h1]
    simp

/-- The state-changing edges of the spec's §4.1 state-machine table:
Closed→Open (threshold reached), Open→HalfOpen (lazy check or timer),
HalfOpen→Closed (probe succeeds), HalfOpen→Open (probe fails). Follows
the spec's words; it is the comparison object for the transition claim. -/
def specStateEdge : CircuitState → CircuitState → Bool
  | .CLOSED, .OPEN => true
  | .OPEN, .HALF_OPEN => true
  | .HALF_OPEN, .CLOSED => true
  | .HALF_OPEN, .OPEN => true
  | _, _ => false

/-- A breaker sitting in the OPEN state (as after threshold failures). -/
def openBreakerCex : CircuitBreaker :=
  { mkCircuitBreaker "cex" {} with state := .OPEN }

/-- C9 counterexample: `reset()` on an OPEN breaker performs the state
change Open→Closed, which is not an edge of the §4.1 table, so not every
state change performed by `reset` follows those edges. -/
theorem reset_escapes_spec_edges :
    openBreakerCex.state = .OPEN ∧
    openBreakerCex.reset.state = .CLOSED ∧
    specStateEdge openBreakerCex.state openBreakerCex.reset.state = false := by
  decide

/-- C9 (amended): every reachable state is one of the three enum values
(by construction of `CircuitState`); every state change made by `execute`
— through its OPEN gate and its settlement step — or by the scheduled
reset timer follows a §4.1 edge; `reset()` instead forces CLOSED from any
state (an edge outside the table when the breaker was OPEN). -/
theorem transitions_follow_spec_edges {α : Type} (b : CircuitBreaker)
    (now : Nat) (op : Operation α) :
    (∀ b1, b.openGate now = .ok b1 →
      b1.state = b.state ∨ specStateEdge b.state b1.state = true) ∧
    ((b.settle now op).1.state = b.state ∨
      specStateEdge b.state (b.settle now op).1.state = true) ∧
    (b.timerFire.state = b.state ∨
      specStateEdge b.state b.timerFire.state = true) ∧
    b.reset.state = .CLOSED := by
  refine ⟨?_, ?_, ?_, rfl⟩
  · intro b1 hg
    rcases CircuitBreaker.openGate_ok hg with ⟨-, rfl⟩ | ⟨hop, -, rfl⟩
    · exact Or.inl rfl
    · right
      rw [hop]
      rfl
  · cases hE : executeWithTimeout b.config op with
    | ok v =>
        rw [CircuitBreaker.settle_of_ok hE]
        obtain ⟨-, -, -, hst, -, -, -⟩ :=
          CircuitBreaker.onSuccess_fields b (completionTime b.config now op)
        rw [hst]
        cases hbs : b.state <;> simp [specStateEdge]
    | error e =>
        rw [CircuitBreaker.settle_of_error hE]
        obtain ⟨-, -, hst, -, -, -, -⟩ :=
          CircuitBreaker.onFailure_fields b (completionTime b.config now op)
        rw [hst]
        by_cases hcond : b.state = CircuitState.HALF_OPEN ∨
            b.config.failureThreshold ≤ b.failures + 1
        · rw [if_pos hcond]
          cases hbs : b.state <;> simp [specStateEdge]
        · rw [if_neg hcond]
          exact Or.inl rfl
  · unfold CircuitBreaker.timerFire
    by_cases hbs : b.state = CircuitState.OPEN
    · rw [if_pos hbs]
      right
      rw [hbs]
      rfl
    · rw [if_neg hbs]
      exact Or.inl rfl

lemma lookup_append_of_none {l : List (String × CircuitBreaker)}
    {name : String} (h : l.lookup name = none) (b : CircuitBreaker) :
    (l ++ [(name, b)]).lookup name = some b := by
  induction l with
  | nil => simp [List.lookup]
  | cons p tl ih =>
      rw [List.cons_append]
      cases hpk : (name == p.1) with
      | true =>
          rw [List.lookup] at h
          simp [hpk] at h
      | false =>
          rw [List.lookup] at h ⊢
          simp only [hpk] at h ⊢
          exact ih h

lemma lookup_map_set {l : List (String × CircuitBreaker)} {name : String}
    (h : (l.lookup name).isSome) (b' : CircuitBreaker) :
    ((l.map fun p => if p.1 = name then (name, b') else p).lookup name)
      = some b' := by
  induction l with
  | nil => simp [List.lookup] at h
  | cons p tl ih =>
      by_cases hpk : p.1 = name
      · simp only [List.map_cons, if_pos hpk]
        simp [List.lookup]
      · simp only [List.map_cons, if_neg hpk]
        have hne : (name == p.1) = false := by
          simp
          exact fun hh => hpk hh.symm
        rw [List.lookup] at h ⊢
        simp only [hne] at h ⊢
        exact ih h

lemma get_lookup (m : CircuitBreakerManager) (name : String)
    (cfg : CircuitBreakerConfig) :
    (m.get name cfg).1.lookup name = some (m.get name cfg).2 := by
  unfold CircuitBreakerManager.get
  cases h : m.lookup name with
  | some b => simpa [h] using h
  | none =>
      simp only [h]
      exact lookup_append_of_none h _

lemma get_of_lookup_some {m : CircuitBreakerManager} {name : String}
    {b : CircuitBreaker} (cfg : CircuitBreakerConfig)
    (h : m.lookup name = some b) : m.get name cfg = (m, b) := by
  unfold CircuitBreakerManager.get
  rw [h]

lemma get_of_lookup_none {m : CircuitBreakerManager} {name : String}
    (cfg : CircuitBreakerConfig) (h : m.lookup name = none) :
    m.get name cfg =
      ({ breakers := m.breakers ++ [(name, mkCircuitBreaker name cfg)] },
        mkCircuitBreaker name cfg) := by
  unfold CircuitBreakerManager.get
  rw [h]

lemma setBreaker_lookup {m : CircuitBreakerManager} {name : String}
    (h : (m.lookup name).isSome) (b' : CircuitBreaker) :
    (m.setBreaker name b').lookup name = some b' := by
  unfold CircuitBreakerManager.setBreaker CircuitBreakerManager.lookup
  exact lookup_map_set (by unfold CircuitBreakerManager.lookup at h; exact h) b'

/-- C7: a name maps to at most one breaker for the registry's lifetime.
A second `get` for the same name returns the identical manager and the
identical stored breaker no matter what configuration it supplies; a
breaker is constructed (with the supplied configuration) only when the
name is absent; a `get` on a present name changes nothing; and a later
`execute` for the name runs the stored breaker — whose immutable
configuration it preserves — rather than constructing a new one. -/
theorem registry_at_most_one_breaker (m : CircuitBreakerManager)
    (name : String) (cfg1 cfg2 : CircuitBreakerConfig) :
    ((m.get name cfg1).1.get name cfg2)
      = ((m.get name cfg1).1, (m.get name cfg1).2) ∧
    (m.lookup name = none →
      (m.get name cfg1).2 = mkCircuitBreaker name cfg1 ∧
      (m.get name cfg1).1.lookup name = some (mkCircuitBreaker name cfg1)) ∧
    (∀ b, m.lookup name = some b → m.get name cfg1 = (m, b)) ∧
    (∀ (now : Nat) (op : Operation Unit),
      ((m.get name cfg1).1.execute name now op cfg2).1.lookup name =
        some (((m.get name cfg1).2.execute now op).breaker) ∧
      (((m.get name cfg1).2.execute now op).breaker).config =
        (m.get name cfg1).2.config) := by
  have hlk := get_lookup m name cfg1
  have hg2 : (m.get name cfg1).1.get name cfg2
      = ((m.get name cfg1).1, (m.get name cfg1).2) :=
    get_of_lookup_some cfg2 hlk
  refine ⟨hg2, ?_, ?_, ?_⟩
  · intro hnone
    have h2 := get_of_lookup_none cfg1 hnone
    refine ⟨by rw [h2], ?_⟩
    rw [hlk, show (m.get name cfg1).2 = mkCircuitBreaker name cfg1
      from by rw [h2]]
  · intro b hsome
    exact get_of_lookup_some cfg1 hsome
  · intro now op
    constructor
    · unfold CircuitBreakerManager.execute
      rw [hg2]
      exact setBreaker_lookup (by rw [hlk]; rfl) _
    · cases hg : CircuitBreaker.openGate
          { (m.get name cfg1).2 with
            totalCalls := (m.get name cfg1).2.totalCalls + 1 } now with
      | error e =>
          rw [CircuitBreaker.execute_of_gate_error op hg]
      | ok b1 =>
          rw [CircuitBreaker.execute_of_gate_ok op hg]
          obtain ⟨hcfg, -, -, -, -, -, -⟩ :=
            CircuitBreaker.openGate_ok_frame hg
          cases hE : executeWithTimeout b1.config op with
          | ok v =>
              rw [CircuitBreaker.settle_of_ok hE]
              obtain ⟨-, -, -, -, hc, -, -⟩ :=
                CircuitBreaker.onSuccess_fields b1
                  (completionTime b1.config now op)
              rw [hc, hcfg]
          | error e =>
              rw [CircuitBreaker.settle_of_error hE]
              obtain ⟨-, -, -, hc, -, -, -⟩ :=
                CircuitBreaker.onFailure_fields b1
                  (completionTime b1.config now op)
              rw [hc, hcfg]

lemma lookup_append_general (l1 l2 : List (String × CircuitBreaker))
    (k : String) :
    (l1 ++ l2).lookup k = ((l1.lookup k).orElse fun _ => l2.lookup k) := by
  induction l1 with
  | nil => rfl
  | cons p tl ih =>
      rw [List.cons_append, List.lookup, List.lookup]
      cases hpk : (k == p.1) with
      | true => rfl
      | false => simpa using ih

lemma setupFold_lookup (d : CircuitBreakerConfig)
    (l : List (String × CircuitBreakerConfig)) (name : String) :
    ∀ m0 : CircuitBreakerManager,
    (l.foldl (fun m nb => (m.get nb.1 (mergeConfig d nb.2)).1) m0).lookup name
      = ((m0.lookup name).orElse
          (fun _ => (l.lookup name).map
            (fun bc => mkCircuitBreaker name (mergeConfig d bc)))) := by
  induction l with
  | nil =>
      intro m0
      cases h : m0.lookup name <;> simp [h, Option.orElse]
  | cons nb tl ih =>
      obtain ⟨n1, bc1⟩ := nb
      intro m0
      rw [List.foldl_cons, ih]
      by_cases hn : name = n1
      · subst hn
        cases h0 : m0.lookup name with
        | some b =>
            rw [get_of_lookup_some _ h0, h0]
            rw [List.lookup]
            simp [Option.orElse]
        | none =>
            rw [get_of_lookup_none _ h0]
            have : ({ breakers := m0.breakers ++
                [(name, mkCircuitBreaker name (mergeConfig d bc1))] } :
                  CircuitBreakerManager).lookup name
                = some (mkCircuitBreaker name (mergeConfig d bc1)) := by
              unfold CircuitBreakerManager.lookup at h0 ⊢
              exact lookup_append_of_none h0 _
            rw [this]
            simp [List.lookup, Option.orElse]
      · have hbeq : (name == n1) = false := by
          simp [hn]
        have hstep : ((m0.get n1 (mergeConfig d bc1)).1).lookup name
            = m0.lookup name := by
          cases h0 : m0.lookup n1 with
          | some b => rw [get_of_lookup_some _ h0]
          | none =>
              rw [get_of_lookup_none _ h0]
              unfold CircuitBreakerManager.lookup
              rw [lookup_append_general]
              rw [List.lookup]
              simp only [hbeq]
              rw [List.lookup]
              cases h1 : List.lookup name m0.breakers <;>
                simp [Option.orElse]
        rw [hstep]
        rw [List.lookup]
        simp only [hbeq]

/-- C8: the configuration a breaker is created with resolves each field
with precedence per-call override > named preset > plugin default >
built-in default, a missing field falling through to the next layer.
A preset name is instantiated eagerly at plugin setup, before any call,
so its creation-time config is preset over plugin default over built-in;
a name without a preset is still absent after setup and is created by the
first decorated `get`/`execute` with the per-call override over the
plugin default over built-in. -/
theorem config_merge_precedence (pcfg : CircuitBreakerPluginConfig)
    (name : String) (o : CircuitBreakerConfig) :
    (∀ bc, pcfg.breakers.lookup name = some bc →
      (circuitBreakerSetup pcfg).lookup name
        = some (mkCircuitBreaker name (mergeConfig pcfg.defaultConfig bc)) ∧
      (mkCircuitBreaker name
          (mergeConfig pcfg.defaultConfig bc)).config.failureThreshold
        = ((bc.failureThreshold.orElse
            fun _ => pcfg.defaultConfig.failureThreshold).getD 5) ∧
      (mkCircuitBreaker name
          (mergeConfig pcfg.defaultConfig bc)).config.resetTimeout
        = ((bc.resetTimeout.orElse
            fun _ => pcfg.defaultConfig.resetTimeout).getD 60000) ∧
      (mkCircuitBreaker name
          (mergeConfig pcfg.defaultConfig bc)).config.timeout
        = ((bc.timeout.orElse
            fun _ => pcfg.defaultConfig.timeout).getD 30000) ∧
      (mkCircuitBreaker name
          (mergeConfig pcfg.defaultConfig bc)).config.onOpen
        = (bc.onOpen.orElse fun _ => pcfg.defaultConfig.onOpen) ∧
      (mkCircuitBreaker name
          (mergeConfig pcfg.defaultConfig bc)).config.onClose
        = (bc.onClose.orElse fun _ => pcfg.defaultConfig.onClose) ∧
      (mkCircuitBreaker name
          (mergeConfig pcfg.defaultConfig bc)).config.onHalfOpen
        = (bc.onHalfOpen.orElse fun _ => pcfg.defaultConfig.onHalfOpen)) ∧
    (pcfg.breakers.lookup name = none →
      (circuitBreakerSetup pcfg).lookup name = none ∧
      (pluginGet pcfg (circuitBreakerSetup pcfg) name o).2
        = mkCircuitBreaker name (mergeConfig pcfg.defaultConfig o) ∧
      (mkCircuitBreaker name
          (mergeConfig pcfg.defaultConfig o)).config.failureThreshold
        = ((o.failureThreshold.orElse
            fun _ => pcfg.defaultConfig.failureThreshold).getD 5) ∧
      (mkCircuitBreaker name
          (mergeConfig pcfg.defaultConfig o)).config.resetTimeout
        = ((o.resetTimeout.orElse
            fun _ => pcfg.defaultConfig.resetTimeout).getD 60000) ∧
      (mkCircuitBreaker name
          (mergeConfig pcfg.defaultConfig o)).config.timeout
        = ((o.timeout.orElse
            fun _ => pcfg.defaultConfig.timeout).getD 30000) ∧
      (mkCircuitBreaker name
          (mergeConfig pcfg.defaultConfig o)).config.onOpen
        = (o.onOpen.orElse fun _ => pcfg.defaultConfig.onOpen) ∧
      (mkCircuitBreaker name
          (mergeConfig pcfg.defaultConfig o)).config.onClose
        = (o.onClose.orElse fun _ => pcfg.defaultConfig.onClose) ∧
      (mkCircuitBreaker name
          (mergeConfig pcfg.defaultConfig o)).config.onHalfOpen
        = (o.onHalfOpen.orElse fun _ => pcfg.defaultConfig.onHalfOpen)) := by
  have hsetup := setupFold_lookup pcfg.defaultConfig pcfg.breakers name
    CircuitBreakerManager.empty
  have hempty : CircuitBreakerManager.empty.lookup name = none := rfl
  constructor
  · intro bc hbc
    refine ⟨?_, rfl, rfl, rfl, rfl, rfl, rfl⟩
    unfold circuitBreakerSetup
    rw [hsetup, hempty, hbc]
    simp [Option.orElse]
  · intro hnone
    have habs : (circuitBreakerSetup pcfg).lookup name = none := by
      unfold circuitBreakerSetup
      rw [hsetup, hempty, hnone]
      simp [Option.orElse]
    refine ⟨habs, ?_, rfl, rfl, rfl, rfl, rfl, rfl⟩
    unfold pluginGet
    rw [get_of_lookup_none _ habs]

/-- Concrete configuration used for witness instances. -/
def wConfig : CircuitBreakerConfig :=
  { failureThreshold := some 2, resetTimeout := some 100, timeout := some 50 }

/-- A freshly constructed breaker (CLOSED, zero counters). -/
def wBreaker : CircuitBreaker := mkCircuitBreaker "w" wConfig

/-- An immediately failing operation. -/
def wFailOp : Operation Unit := { duration := 0, result := .error "boom" }

/-- An immediately succeeding operation. -/
def wOkOp : Operation Unit := { duration := 0, result := .ok () }

/-- An operation that outlasts the 50ms configured timeout. -/
def wSlowOp : Operation Unit := { duration := 100, result := .ok () }

/-- A breaker tripped OPEN with its last failure at time 10. -/
def wOpenBreaker : CircuitBreaker :=
  { mkCircuitBreaker "w" wConfig with
    state := .OPEN
    failures := 2
    totalCalls := 2
    lastFailureTime := some 10
    resetTimer := some 110 }

/-- The two-call failing run used for the C1 witness. -/
def wC1Calls : List (Nat × Operation Unit) := [(0, wFailOp), (1, wFailOp)]

/-- Witness for C1 at threshold 2: two failing calls leave `wBreaker`
OPEN. -/
theorem consecutive_failures_open_at_threshold_witness :
    (runCalls wBreaker wC1Calls).state = .OPEN :=
  (consecutive_failures_open_at_threshold wBreaker wC1Calls rfl rfl
    (by decide) (by decide) (by decide)).1

/-- Witness for C2: a call at time 20 (10ms after the failure, cooldown
100ms) rejects without invoking the operation. -/
theorem execute_open_rejects_witness :
    (wOpenBreaker.execute 20 wOkOp).result =
      .error (.circuitOpen wOpenBreaker.name .OPEN) ∧
    (wOpenBreaker.execute 20 wOkOp).invoked = false :=
  execute_open_rejects wOpenBreaker 20 10 wOkOp rfl rfl (by decide)

/-- Witness for C3: a call at time 200 (cooldown elapsed) invokes the
operation. -/
theorem execute_open_elapsed_probes_witness :
    (wOpenBreaker.execute 200 wOkOp).invoked = true :=
  (execute_open_elapsed_probes wOpenBreaker 200 10 wOkOp rfl rfl
    (by decide)).2.1

/-- Witness for C4 at a successful call on the fresh breaker. -/
theorem execute_success_updates_witness :
    (wBreaker.execute 0 wOkOp).breaker.successes = wBreaker.successes + 1 ∧
    (wBreaker.execute 0 wOkOp).breaker.lastSuccessTime =
      some (completionTime wBreaker.config 0 wOkOp) ∧
    (wBreaker.execute 0 wOkOp).breaker.failures = 0 ∧
    (wBreaker.execute 0 wOkOp).breaker.state = .CLOSED :=
  execute_success_updates wBreaker 0 wOkOp () rfl

/-- Witness for C5: the 100ms operation under the 50ms timeout. -/
theorem execute_timeout_counts_failure_witness :
    (wBreaker.execute 0 wSlowOp).result =
      .error (.timeout wBreaker.config.timeout) ∧
    (∃ pre suf, (CBError.timeout wBreaker.config.timeout).message =
      pre ++ toString wBreaker.config.timeout ++ suf) ∧
    (wBreaker.execute 0 wSlowOp).breaker.failures = wBreaker.failures + 1 ∧
    (wBreaker.execute 0 wSlowOp).breaker.lastFailureTime =
      some (0 + wBreaker.config.timeout) :=
  execute_timeout_counts_failure wBreaker 0 wSlowOp rfl (by decide)

/-- Witness for C7: creating `"api"` in the empty registry stores the
breaker built from the supplied configuration. -/
theorem registry_at_most_one_breaker_witness :
    (CircuitBreakerManager.empty.get "api" wConfig).2 =
      mkCircuitBreaker "api" wConfig :=
  ((registry_at_most_one_breaker CircuitBreakerManager.empty "api" wConfig
    {}).2.1 rfl).1

/-- Plugin configuration used for the C8 witness. -/
def wPlugin : CircuitBreakerPluginConfig :=
  { defaultConfig := { resetTimeout := some 777, onOpen := some 1 }
    breakers := [("p", { failureThreshold := some 7 })] }

/-- Witness for C8: the preset name `"p"` is created at setup with the
preset merged over the plugin default. -/
theorem config_merge_precedence_witness :
    (circuitBreakerSetup wPlugin).lookup "p" =
      some (mkCircuitBreaker "p"
        (mergeConfig wPlugin.defaultConfig { failureThreshold := some 7 })) :=
  ((config_merge_precedence wPlugin "p" {}).1
    { failureThreshold := some 7 } rfl).1

/-- Witness for the amended C9 at a CLOSED breaker: the gate step keeps
the state, and `reset` yields CLOSED. -/
theorem transitions_follow_spec_edges_witness :
    (wBreaker.state = wBreaker.state ∨
      specStateEdge wBreaker.state wBreaker.state = true) ∧
    wBreaker.reset.state = .CLOSED :=
  ⟨(transitions_follow_spec_edges wBreaker 0 wOkOp).1 wBreaker rfl,
    (transitions_follow_spec_edges wBreaker 0 wOkOp).2.2.2⟩

/-- Witness for C10: the rejected call at time 20 changes only
`totalCalls`. -/
theorem execute_open_rejection_frame_witness :
    (wOpenBreaker.execute 20 wOkOp).breaker.state = wOpenBreaker.state ∧
    (wOpenBreaker.execute 20 wOkOp).breaker.failures =
      wOpenBreaker.failures ∧
    (wOpenBreaker.execute 20 wOkOp).breaker.successes =
      wOpenBreaker.successes ∧
    (wOpenBreaker.execute 20 wOkOp).breaker.lastFailureTime =
      wOpenBreaker.lastFailureTime ∧
    (wOpenBreaker.execute 20 wOkOp).breaker.lastSuccessTime =
      wOpenBreaker.lastSuccessTime ∧
    (wOpenBreaker.execute 20 wOkOp).breaker.totalCalls =
      wOpenBreaker.totalCalls + 1 :=
  execute_open_rejection_frame wOpenBreaker 20 10 wOkOp rfl rfl (by decide)
